import Mathlib

/-!
Shallow embedding of `src/swp.py` — a Sliding Window Protocol (SWP)
sender/receiver pair over an unreliable datagram link.

Bytes are modelled as `Nat` (each in `0..255` on real inputs), byte strings
as `List Nat`.  Python exceptions are modelled with `Except Unit`.
Threading objects (locks, `threading.Timer` handles) carry no data relevant
to the verified properties; buffers that in Python map a sequence number to
a `(data, timer)` pair are modelled as association lists from sequence
number to payload, preserving Python dict insertion order.
-/

/-- `class SWPType(enum.IntEnum)`: `DATA = ord('D')`, `ACK = ord('A')`. -/
inductive SWPType where
  | DATA
  | ACK
deriving DecidableEq, Repr

/-- The integer value of the enum member (`ord('D') = 68`, `ord('A') = 65`). -/
def SWPType.val : SWPType → Nat
  | .DATA => 68
  | .ACK => 65

/-- `SWPType(b)`: look up the enum member with value `b`; `none` models the
`ValueError` Python raises for an unrecognised value. -/
def SWPType.ofByte? (b : Nat) : Option SWPType :=
  if b = 68 then some .DATA else if b = 65 then some .ACK else none

/-- `class SWPPacket`: immutable value with `type`, `seq_num`, `data`. -/
structure SWPPacket where
  type : SWPType
  seq_num : Nat
  data : List Nat
deriving DecidableEq, Repr

/-- `MAX_DATA_SIZE = 1400`. -/
def SWPPacket.MAX_DATA_SIZE : Nat := 1400

/-- `_HEADER_SIZE = struct.calcsize('!BI') = 5`. -/
def SWPPacket.HEADER_SIZE : Nat := 5

/-- The four big-endian bytes of `struct.pack('!I', n)` (valid for `n < 2^32`,
the range `struct.pack` accepts for format `I`). -/
def beBytes (n : Nat) : List Nat :=
  [n / 2 ^ 24 % 256, n / 2 ^ 16 % 256, n / 2 ^ 8 % 256, n % 256]

/-- The unsigned big-endian value of a byte list, as `struct.unpack('!I', ·)`
computes it on a 4-byte buffer. -/
def beVal (l : List Nat) : Nat := l.foldl (fun acc b => acc * 256 + b) 0

/-- `SWPPacket.to_bytes`: `struct.pack('!BI', type.value, seq_num) + data` —
a 1-byte type tag, a 4-byte big-endian sequence number, then the payload. -/
def SWPPacket.to_bytes (p : SWPPacket) : List Nat :=
  p.type.val :: (beBytes p.seq_num ++ p.data)

/-- `SWPPacket.from_bytes(raw)`: `struct.unpack('!BI', raw[:5])` raises
`struct.error` when fewer than 5 bytes are supplied (modelled `.error ()`);
`SWPType(header[0])` raises `ValueError` on an unrecognised type tag
(modelled `.error ()`); otherwise the packet's payload is `raw[5:]`. -/
def SWPPacket.from_bytes (raw : List Nat) : Except Unit SWPPacket :=
  if raw.length < SWPPacket.HEADER_SIZE then .error ()
  else
    match SWPType.ofByte? (raw.headD 0) with
    | none => .error ()
    | some t => .ok ⟨t, beVal ((raw.drop 1).take 4), raw.drop SWPPacket.HEADER_SIZE⟩

lemma beVal_beBytes (n : Nat) (h : n < 2 ^ 32) : beVal (beBytes n) = n := by
  simp only [beBytes, beVal, List.foldl]
  omega

lemma beBytes_length (n : Nat) : (beBytes n).length = 4 := rfl

deriving instance DecidableEq for Except

/-- C8: for every packet with a 32-bit sequence number, decoding the encoding
yields the packet back, and the encoding is exactly a 1-byte type tag
followed by the 4-byte big-endian sequence number followed by the payload
(a 5-byte header, then the payload). -/
theorem from_bytes_to_bytes (p : SWPPacket) (h : p.seq_num < 2 ^ 32) :
    SWPPacket.from_bytes p.to_bytes = .ok p ∧
    p.to_bytes = p.type.val :: (beBytes p.seq_num ++ p.data) ∧
    (p.type.val :: beBytes p.seq_num).length = SWPPacket.HEADER_SIZE ∧
    beVal (beBytes p.seq_num) = p.seq_num := by
  refine ⟨?_, rfl, rfl, beVal_beBytes _ h⟩
  have hlen : p.to_bytes.length = 5 + p.data.length := by
    simp [SWPPacket.to_bytes, beBytes]
    omega
  have hnotlt : ¬ p.to_bytes.length < SWPPacket.HEADER_SIZE := by
    simp [hlen, SWPPacket.HEADER_SIZE]
  rw [SWPPacket.from_bytes, if_neg hnotlt]
  have hdrop1 : p.to_bytes.drop 1 = beBytes p.seq_num ++ p.data := rfl
  have htake : (p.to_bytes.drop 1).take 4 = beBytes p.seq_num := by
    rw [hdrop1, List.take_append_of_le_length (by simp [beBytes]),
      List.take_of_length_le (by simp [beBytes])]
  have hdrop5 : p.to_bytes.drop SWPPacket.HEADER_SIZE = p.data := by
    show (beBytes p.seq_num ++ p.data).drop 4 = p.data
    rw [List.drop_append_of_le_length (by simp [beBytes])]
    simp [beBytes]
  have hhead : p.to_bytes.headD 0 = p.type.val := rfl
  cases p with
  | mk t s d =>
    cases t <;>
      simp_all [SWPType.ofByte?, SWPType.val, beVal_beBytes _ h]

/-- C8 witness: the round trip evaluated at the concrete packet
`DATA, seq_num 1, payload [7, 8]`. -/
theorem from_bytes_to_bytes_witness :
    SWPPacket.from_bytes (SWPPacket.to_bytes ⟨.DATA, 1, [7, 8]⟩) =
      .ok ⟨.DATA, 1, [7, 8]⟩ :=
  (from_bytes_to_bytes ⟨.DATA, 1, [7, 8]⟩ (by decide)).1

/-- C5: decoding fails exactly when fewer than 5 bytes are supplied or the
first byte is neither `'D' = 68` nor `'A' = 65`; on success the payload is
every byte after the 5-byte header. -/
theorem from_bytes_malformed_iff (raw : List Nat) :
    (SWPPacket.from_bytes raw = .error () ↔
      raw.length < 5 ∨ (raw.headD 0 ≠ 68 ∧ raw.headD 0 ≠ 65)) ∧
    (∀ p, SWPPacket.from_bytes raw = .ok p → p.data = raw.drop 5) := by
  rw [SWPPacket.from_bytes]
  by_cases hlen : raw.length < SWPPacket.HEADER_SIZE
  · rw [if_pos hlen]
    refine ⟨⟨fun _ => Or.inl hlen, fun _ => rfl⟩, fun p hp => by cases hp⟩
  · rw [if_neg hlen]
    have hlen5 : ¬ raw.length < 5 := hlen
    generalize raw.headD 0 = b
    rw [SWPType.ofByte?]
    by_cases h68 : b = 68
    · rw [if_pos h68]
      subst h68
      exact ⟨by simp [hlen5], fun p hp => by cases hp; rfl⟩
    · rw [if_neg h68]
      by_cases h65 : b = 65
      · rw [if_pos h65]
        subst h65
        exact ⟨by simp [hlen5], fun p hp => by cases hp; rfl⟩
      · rw [if_neg h65]
        exact ⟨by simp [hlen5, h68, h65], fun p hp => by cases hp⟩

/-- C5 witness: the characterisation evaluated at the concrete 6-byte input
`[68, 0, 0, 0, 1, 7]`, which decodes successfully with payload `[7]`. -/
theorem from_bytes_malformed_iff_witness :
    ¬ (([68, 0, 0, 0, 1, 7] : List Nat).length < 5 ∨
        (([68, 0, 0, 0, 1, 7] : List Nat).headD 0 ≠ 68 ∧
         ([68, 0, 0, 0, 1, 7] : List Nat).headD 0 ≠ 65)) ∧
    (⟨.DATA, 1, [7]⟩ : SWPPacket).data = ([68, 0, 0, 0, 1, 7] : List Nat).drop 5 := by
  constructor
  · intro hcontra
    exact absurd ((from_bytes_malformed_iff [68, 0, 0, 0, 1, 7]).1.mpr hcontra)
      (by decide)
  · exact (from_bytes_malformed_iff [68, 0, 0, 0, 1, 7]).2 ⟨.DATA, 1, [7]⟩ (by decide)

/-! ## Sender (`class SWPSender`) -/

/-- The sliding-window state of `SWPSender`: `_last_ack_received` (LAR),
`_last_frame_sent` (LFS), the retransmission buffer `_buffer` (an
association list `seq_num ↦ data`; the Python value also stores a
`threading.Timer` handle, which carries no data relevant here), and the
current value of the `_send_window_not_full` bounded semaphore. -/
structure SenderState where
  lar : Nat
  lfs : Nat
  buffer : List (Nat × List Nat)
  permits : Nat
deriving DecidableEq, Repr

/-- `_SEND_WINDOW_SIZE = 5`. -/
def SWPSender.SWS : Nat := 5

/-- `SWPSender.__init__`: LAR = 0, LFS = 0, empty buffer, semaphore at SWS. -/
def SWPSender.initState : SenderState := ⟨0, 0, [], SWPSender.SWS⟩

/-- `SWPSender._send(data)`, after the semaphore acquire has succeeded
(the acquire blocks while `permits = 0`; this function is the state effect
of a `_send` call that has proceeded): assigns `seq_num = LFS + 1`,
advances LFS, records `(seq_num, data)` in the buffer, and transmits
`SWPPacket(DATA, seq_num, data)` (the returned packet). -/
def SWPSender.sendOne (s : SenderState) (data : List Nat) :
    SenderState × SWPPacket :=
  (⟨s.lar, s.lfs + 1, s.buffer ++ [(s.lfs + 1, data)], s.permits - 1⟩,
   ⟨.DATA, s.lfs + 1, data⟩)

/-- The chunking loop of `SWPSender.send`:
`for i in range(0, len(data), MAX_DATA_SIZE): data[i:i+MAX_DATA_SIZE]`.
The fuel bounds the iteration count; the loop runs at most
`len(data)` times since each iteration consumes at least one byte. -/
def SWPSender.sendChunksAux : Nat → List Nat → List (List Nat)
  | 0, _ => []
  | _ + 1, [] => []
  | fuel + 1, x :: xs =>
    ((x :: xs).take SWPPacket.MAX_DATA_SIZE) ::
      SWPSender.sendChunksAux fuel ((x :: xs).drop SWPPacket.MAX_DATA_SIZE)

/-- The successive slices `data[i:i+MAX_DATA_SIZE]` for
`i in range(0, len(data), MAX_DATA_SIZE)`. -/
def SWPSender.sendChunks (data : List Nat) : List (List Nat) :=
  SWPSender.sendChunksAux data.length data

/-- Sequential `_send` calls, one per chunk, threading the sender state and
collecting the transmitted DATA packets in order. -/
def SWPSender.sendMany : SenderState → List (List Nat) → SenderState × List SWPPacket
  | s, [] => (s, [])
  | s, c :: cs =>
    let r := SWPSender.sendOne s c
    let r2 := SWPSender.sendMany r.1 cs
    (r2.1, r.2 :: r2.2)

/-- `SWPSender.send(data)`: splits `data` into chunks of at most
`MAX_DATA_SIZE` bytes and calls `_send` on each in order. -/
def SWPSender.send (s : SenderState) (data : List Nat) :
    SenderState × List SWPPacket :=
  SWPSender.sendMany s (SWPSender.sendChunks data)

/-- `SWPSender._retransmit(seq_num)`:
`(data, timer) = self._buffer.get(seq_num)` — when `seq_num` is absent,
`dict.get` returns `None` and the tuple unpacking raises `TypeError`
(modelled `.error ()`); otherwise the DATA packet is rebuilt from the
buffered payload and re-sent (the returned packet). -/
def SWPSender.retransmit (s : SenderState) (seq_num : Nat) :
    Except Unit SWPPacket :=
  match s.buffer.find? (fun kv => kv.1 = seq_num) with
  | none => .error ()
  | some kv => .ok ⟨.DATA, seq_num, kv.2⟩

/-- One iteration of the `SWPSender._recv` loop body on a received datagram
`raw`: `SWPPacket.from_bytes(raw)` is called with no exception handler, so a
decode failure propagates (`.error`); a packet whose type is not ACK is
skipped (`continue`, state unchanged); an ACK whose `seq_num` is not a buffer
key is skipped; otherwise the timer is cancelled, `LAR` is set to `seq_num`,
every buffer entry with key `≤ seq_num` is discarded, and the semaphore is
released once per `i in range(old LAR, seq_num)`, i.e. `seq_num - old LAR`
times. -/
def SWPSender.recvStep (s : SenderState) (raw : List Nat) :
    Except Unit SenderState :=
  match SWPPacket.from_bytes raw with
  | .error e => .error e
  | .ok p =>
    if p.type = SWPType.ACK then
      if p.seq_num ∈ s.buffer.map Prod.fst then
        .ok ⟨p.seq_num, s.lfs, s.buffer.filter (fun kv => p.seq_num < kv.1),
             s.permits + (p.seq_num - s.lar)⟩
      else .ok s
    else .ok s

/-- C4: the retransmission handler is not a safe no-op on an absent entry:
fired for `seq_num = 1` when the buffer no longer holds it (here: the
initial empty buffer, as after a cumulative-ACK purge), `_retransmit`
faults (`dict.get` yields `None`, the unpacking raises `TypeError`), while
on a present entry it returns the buffered DATA packet. -/
theorem retransmit_faults_on_absent_entry :
    SWPSender.retransmit SWPSender.initState 1 = .error () ∧
    SWPSender.retransmit ⟨0, 1, [(1, [5])], 4⟩ 1 = .ok ⟨.DATA, 1, [5]⟩ := by
  decide

lemma sendChunksAux_flatten :
    ∀ (fuel : Nat) (l : List Nat), l.length ≤ fuel →
      (SWPSender.sendChunksAux fuel l).flatten = l := by
  intro fuel
  induction fuel with
  | zero =>
    intro l hl
    cases l with
    | nil => rfl
    | cons x xs => simp at hl
  | succ fuel ih =>
    intro l hl
    cases l with
    | nil => rfl
    | cons x xs =>
      rw [SWPSender.sendChunksAux, List.flatten_cons,
        ih _ (by simp [SWPPacket.MAX_DATA_SIZE] at hl ⊢; omega),
        List.take_append_drop]

lemma sendChunksAux_mem_length :
    ∀ (fuel : Nat) (l c : List Nat), c ∈ SWPSender.sendChunksAux fuel l →
      c.length ≤ SWPPacket.MAX_DATA_SIZE := by
  intro fuel
  induction fuel with
  | zero =>
    intro l c hc
    simp [SWPSender.sendChunksAux] at hc
  | succ fuel ih =>
    intro l c hc
    cases l with
    | nil => simp [SWPSender.sendChunksAux] at hc
    | cons x xs =>
      rw [SWPSender.sendChunksAux] at hc
      rcases List.mem_cons.mp hc with h | h
      · rw [h]
        exact List.length_take_le _ _
      · exact ih _ _ h

lemma sendMany_spec (cs : List (List Nat)) :
    ∀ s : SenderState,
      (SWPSender.sendMany s cs).2.map SWPPacket.seq_num =
          List.range' (s.lfs + 1) cs.length ∧
      (SWPSender.sendMany s cs).2.map SWPPacket.data = cs ∧
      (SWPSender.sendMany s cs).1.lfs = s.lfs + cs.length := by
  induction cs with
  | nil => intro s; simp [SWPSender.sendMany]
  | cons c cs ih =>
    intro s
    obtain ⟨h1, h2, h3⟩ := ih (SWPSender.sendOne s c).1
    refine ⟨?_, ?_, ?_⟩
    · rw [SWPSender.sendMany, List.map_cons, h1, List.length_cons,
        List.range'_succ]
      rfl
    · rw [SWPSender.sendMany, List.map_cons, h2]
      rfl
    · rw [SWPSender.sendMany, h3]
      simp [SWPSender.sendOne]
      omega

set_option maxRecDepth 40000 in
/-- C7: `send` splits its input into consecutive chunks of at most
`MAX_DATA_SIZE = 1400` bytes which concatenate back to the input, and hands
each to `_send` sequentially, producing DATA packets with consecutive
sequence numbers starting at `LFS + 1` whose payloads are exactly the
chunks; a single 3000-byte payload from the initial state yields exactly 3
segments of sizes `1400, 1400, 200` with sequence numbers `1, 2, 3`. -/
theorem send_splits_into_chunks :
    (∀ data : List Nat, (SWPSender.sendChunks data).flatten = data) ∧
    (∀ (data c : List Nat), c ∈ SWPSender.sendChunks data →
      c.length ≤ SWPPacket.MAX_DATA_SIZE) ∧
    (∀ (s : SenderState) (data : List Nat),
      (SWPSender.send s data).2.map SWPPacket.seq_num =
          List.range' (s.lfs + 1) (SWPSender.sendChunks data).length ∧
      (SWPSender.send s data).2.map SWPPacket.data = SWPSender.sendChunks data) ∧
    ((SWPSender.send SWPSender.initState (List.replicate 3000 0)).2.map
        (fun q => q.data.length) = [1400, 1400, 200] ∧
     (SWPSender.send SWPSender.initState (List.replicate 3000 0)).2.map
        SWPPacket.seq_num = [1, 2, 3]) := by
  have hchunks : SWPSender.sendChunks (List.replicate 3000 0) =
      [List.replicate 1400 0, List.replicate 1400 0, List.replicate 200 0] := by
    rw [SWPSender.sendChunks, List.length_replicate]
    rfl
  have hspec : ∀ (s : SenderState) (data : List Nat),
      (SWPSender.send s data).2.map SWPPacket.seq_num =
          List.range' (s.lfs + 1) (SWPSender.sendChunks data).length ∧
      (SWPSender.send s data).2.map SWPPacket.data = SWPSender.sendChunks data := by
    intro s data
    obtain ⟨h1, h2, _⟩ := sendMany_spec (SWPSender.sendChunks data) s
    exact ⟨h1, h2⟩
  refine ⟨fun data => sendChunksAux_flatten data.length data le_rfl,
    fun data c hc => sendChunksAux_mem_length data.length data c hc,
    hspec, ?_, ?_⟩
  · have h := (hspec SWPSender.initState (List.replicate 3000 0)).2
    have hcomp : (SWPSender.send SWPSender.initState (List.replicate 3000 0)).2.map
        (fun q => q.data.length) =
        ((SWPSender.send SWPSender.initState (List.replicate 3000 0)).2.map
          SWPPacket.data).map List.length := by
      rw [List.map_map]
      rfl
    rw [hcomp, h, hchunks]
    rfl
  · have h := (hspec SWPSender.initState (List.replicate 3000 0)).1
    rw [h, hchunks]
    rfl

/-- C7 witness: the chunk-size bound applied at the concrete input `[1, 2]`,
whose only chunk is `[1, 2]` itself. -/
theorem send_splits_into_chunks_witness :
    ([1, 2] : List Nat).length ≤ SWPPacket.MAX_DATA_SIZE :=
  send_splits_into_chunks.2.1 [1, 2] [1, 2] (by decide)

/-! ## Receiver (`class SWPReceiver`) -/

/-- The state of `SWPReceiver`: `_last_frame_recd` (LFR),
`_last_acceptable_frame` (LAF), the reorder buffer `_buffer` (an
`OrderedDict` mapping sequence number to payload, modelled as an
association list in insertion order), and `_ready_data` (the delivery
queue, enqueued at the tail). -/
structure ReceiverState where
  lfr : Nat
  laf : Nat
  buffer : List (Nat × List Nat)
  readyData : List (List Nat)
deriving DecidableEq, Repr

/-- `_RECV_WINDOW_SIZE = 5`. -/
def SWPReceiver.RWS : Nat := 5

/-- `SWPReceiver.__init__`: LFR = 0, LAF = 0 + RWS, empty reorder buffer,
empty delivery queue. -/
def SWPReceiver.initState : ReceiverState := ⟨0, SWPReceiver.RWS, [], []⟩

/-- `self._buffer[seq_num] = packet.data` on the `OrderedDict`: an existing
key keeps its position and gets the new value; a new key is appended. -/
def odInsert (buf : List (Nat × List Nat)) (k : Nat) (v : List Nat) :
    List (Nat × List Nat) :=
  if buf.any (fun kv => kv.1 = k) then
    buf.map (fun kv => if kv.1 = k then (k, v) else kv)
  else buf ++ [(k, v)]

/-- The receiver's buffer-traversal loop: starting at `i = LFR + 1`, while
`i` is a buffer key advance `seq_num_to_ack` to `i` and increment `i`; the
result is `i - 1` for the first absent `i`.  The fuel bounds the iteration
count; since the (distinct) keys can contain at most `keys.length`
consecutive values, fuel `keys.length + 1` is never exhausted. -/
def scanAck (keys : List Nat) : Nat → Nat → Nat
  | 0, i => i - 1
  | fuel + 1, i => if i ∈ keys then scanAck keys fuel (i + 1) else i - 1

/-- One iteration of the `SWPReceiver._recv` loop body on a decoded packet:
drops the packet silently when `seq_num ≤ LFR` or `seq_num > LAF`
(`continue`, no ACK, state unchanged); otherwise transmits an ACK carrying
the current LFR, stores the payload in the reorder buffer, scans for the
contiguous high-water mark `seq_num_to_ack`, moves every buffer entry with
key `≤ seq_num_to_ack` to the delivery queue **in buffer insertion order**
(iterating `self._buffer.items()`), keeps the rest, sets
`LFR = seq_num_to_ack` and `LAF = LFR + RWS`, and transmits a second ACK
carrying the updated LFR.  Returns the new state and the transmitted ACKs
in order. -/
def SWPReceiver.recvStep (s : ReceiverState) (p : SWPPacket) :
    ReceiverState × List SWPPacket :=
  if p.seq_num ≤ s.lfr ∨ s.laf < p.seq_num then (s, [])
  else
    let buf := odInsert s.buffer p.seq_num p.data
    let ackNum := scanAck (buf.map Prod.fst) (buf.length + 1) (s.lfr + 1)
    let delivered := (buf.filter (fun kv => kv.1 ≤ ackNum)).map Prod.snd
    let kept := buf.filter (fun kv => ackNum < kv.1)
    (⟨ackNum, ackNum + SWPReceiver.RWS, kept, s.readyData ++ delivered⟩,
     [⟨.ACK, s.lfr, []⟩, ⟨.ACK, ackNum, []⟩])

/-- The receiver's internal loop run over a list of arriving decoded
packets, accumulating the state. -/
def SWPReceiver.run (s : ReceiverState) (ps : List SWPPacket) : ReceiverState :=
  ps.foldl (fun st p => (SWPReceiver.recvStep st p).1) s

/-- C9: an out-of-window DATA segment (`seq_num ≤ LFR` or `seq_num > LAF`)
is discarded silently: no ACK is transmitted and LFR, LAF, the reorder
buffer and the delivery queue are all unchanged. -/
theorem receiver_drops_out_of_window (s : ReceiverState) (p : SWPPacket)
    (h : p.seq_num ≤ s.lfr ∨ s.laf < p.seq_num) :
    SWPReceiver.recvStep s p = (s, []) := by
  rw [SWPReceiver.recvStep, if_pos h]

/-- C9 witness: a duplicate segment with `seq_num = 0 ≤ LFR` at the initial
receiver state is dropped with no ACK and no state change. -/
theorem receiver_drops_out_of_window_witness :
    SWPReceiver.recvStep SWPReceiver.initState ⟨.DATA, 0, [9]⟩ =
      (SWPReceiver.initState, []) :=
  receiver_drops_out_of_window SWPReceiver.initState ⟨.DATA, 0, [9]⟩
    (Or.inl (by decide))

/-- C1 (failing input): with segments `2, 3` arriving before segment `1`,
nothing is delivered until `1` arrives (gap handling holds), and the sweep
does remove every buffer entry with key `≤ seq_num_to_ack = 3` — but the
payloads are enqueued in buffer *insertion* order `2, 3, 1`, not in
ascending sequence-number order `1, 2, 3`: the loop iterates
`self._buffer.items()`, whose order is arrival order. -/
theorem receiver_delivers_in_insertion_order :
    (SWPReceiver.run SWPReceiver.initState
        [⟨.DATA, 2, [2]⟩, ⟨.DATA, 3, [3]⟩]).readyData = [] ∧
    (SWPReceiver.run SWPReceiver.initState
        [⟨.DATA, 2, [2]⟩, ⟨.DATA, 3, [3]⟩, ⟨.DATA, 1, [1]⟩]).readyData =
      [[2], [3], [1]] ∧
    (SWPReceiver.run SWPReceiver.initState
        [⟨.DATA, 2, [2]⟩, ⟨.DATA, 3, [3]⟩, ⟨.DATA, 1, [1]⟩]).buffer = [] ∧
    ([[2], [3], [1]] : List (List Nat)) ≠ [[1], [2], [3]] := by
  decide

/-! ## Sender transition system and window invariant -/

/-- A state transition of the sender: either a completed `_send` call
(enabled only when a window permit is free — the semaphore acquire blocks
otherwise) or one iteration of the `_recv` ACK-processing loop that did not
fault.  `_retransmit` reads the buffer but changes no sliding-window
state. -/
inductive SenderStep : SenderState → SenderState → Prop where
  | send : ∀ {s : SenderState} (data : List Nat), 0 < s.permits →
      SenderStep s (SWPSender.sendOne s data).1
  | ack : ∀ {s s' : SenderState} (raw : List Nat),
      SWPSender.recvStep s raw = .ok s' → SenderStep s s'

/-- Sender states reachable from `__init__` by `_send` and ACK steps. -/
inductive SenderReachable : SenderState → Prop where
  | init : SenderReachable SWPSender.initState
  | step : ∀ (s s' : SenderState), SenderReachable s → SenderStep s s' →
      SenderReachable s'

/-- The sender's sliding-window invariant: the buffer holds exactly the
keys `LAR + 1, …, LFS` in ascending order, and free permits plus buffered
segments account for the whole window. -/
def SenderInv (s : SenderState) : Prop :=
  s.buffer.map Prod.fst = List.range' (s.lar + 1) (s.lfs - s.lar) ∧
  s.permits + (s.lfs - s.lar) = SWPSender.SWS ∧
  s.lar ≤ s.lfs

lemma mapFst_filter (q : Nat) (l : List (Nat × List Nat)) :
    (l.filter (fun kv => decide (q < kv.1))).map Prod.fst =
      (l.map Prod.fst).filter (fun x => decide (q < x)) := by
  induction l with
  | nil => rfl
  | cons kv t ih =>
    by_cases h : q < kv.1
    · simp [List.filter_cons, h, ih]
    · simp [List.filter_cons, h, ih]

lemma filter_lt_range' (k : Nat) :
    ∀ (n a : Nat), a ≤ k + 1 →
      (List.range' a n).filter (fun x => decide (k < x)) =
        List.range' (k + 1) (a + n - (k + 1)) := by
  intro n
  induction n with
  | zero =>
    intro a ha
    rw [show a + 0 - (k + 1) = 0 by omega]
    simp
  | succ n ih =>
    intro a ha
    by_cases hak : a = k + 1
    · subst hak
      rw [List.filter_eq_self.mpr]
      · congr 1
        omega
      · intro x hx
        rw [List.mem_range'_1] at hx
        simp only [decide_eq_true_eq]
        omega
    · have hcons : (List.range' a (n + 1)).filter (fun x => decide (k < x)) =
          (List.range' (a + 1) n).filter (fun x => decide (k < x)) := by
        rw [List.range'_succ, List.filter_cons]
        have : ¬ k < a := by omega
        simp [this]
      rw [hcons, ih (a + 1) (by omega)]
      congr 1
      omega

lemma senderInv_init : SenderInv SWPSender.initState := ⟨rfl, rfl, le_rfl⟩

lemma recvStep_ok_cases (s s' : SenderState) (raw : List Nat)
    (h : SWPSender.recvStep s raw = .ok s') :
    s' = s ∨ ∃ p, SWPPacket.from_bytes raw = .ok p ∧ p.type = SWPType.ACK ∧
      p.seq_num ∈ s.buffer.map Prod.fst ∧
      s' = ⟨p.seq_num, s.lfs, s.buffer.filter (fun kv => p.seq_num < kv.1),
            s.permits + (p.seq_num - s.lar)⟩ := by
  rw [SWPSender.recvStep] at h
  split at h
  next e heq => cases h
  next p heq =>
    split at h
    next ht =>
      split at h
      next hm => exact Or.inr ⟨p, heq, ht, hm, (Except.ok.inj h).symm⟩
      next hm => exact Or.inl (Except.ok.inj h).symm
    next ht => exact Or.inl (Except.ok.inj h).symm

lemma senderInv_step (s s' : SenderState) (hinv : SenderInv s)
    (hstep : SenderStep s s') : SenderInv s' := by
  obtain ⟨hkeys, hperm, hle⟩ := hinv
  cases hstep with
  | send data hp =>
    refine ⟨?_, ?_, ?_⟩
    · show (s.buffer ++ [(s.lfs + 1, data)]).map Prod.fst =
        List.range' (s.lar + 1) (s.lfs + 1 - s.lar)
      rw [List.map_append, hkeys]
      have h1 : s.lfs + 1 - s.lar = (s.lfs - s.lar) + 1 := by omega
      have h2 : s.lfs + 1 = (s.lar + 1) + (s.lfs - s.lar) := by omega
      rw [h1, List.range'_1_concat, ← h2]
      rfl
    · show (s.permits - 1) + (s.lfs + 1 - s.lar) = SWPSender.SWS
      omega
    · show s.lar ≤ s.lfs + 1
      omega
  | ack raw hok =>
    rcases recvStep_ok_cases s s' raw hok with heq | ⟨p, _, _, hm, heq⟩
    · subst heq
      exact ⟨hkeys, hperm, hle⟩
    · have hm' := hm
      rw [hkeys, List.mem_range'_1] at hm'
      subst heq
      refine ⟨?_, ?_, ?_⟩
      · show (s.buffer.filter (fun kv => p.seq_num < kv.1)).map Prod.fst =
          List.range' (p.seq_num + 1) (s.lfs - p.seq_num)
        rw [mapFst_filter, hkeys, filter_lt_range' p.seq_num _ _ (by omega)]
        congr 1
        omega
      · show (s.permits + (p.seq_num - s.lar)) + (s.lfs - p.seq_num) =
          SWPSender.SWS
        omega
      · show p.seq_num ≤ s.lfs
        omega

lemma senderReachable_inv (s : SenderState) (h : SenderReachable s) :
    SenderInv s := by
  induction h with
  | init => exact senderInv_init
  | step s s' _ hstep ih => exact senderInv_step s s' ih hstep

/-- C3: in every reachable sender state the retransmission buffer — the
DATA segments sent but not yet cumulatively acknowledged — holds at most
`SWS = 5` entries, and when it holds exactly `SWS` entries no window permit
is free, so the semaphore acquire in `_send` blocks instead of letting the
window be exceeded. -/
theorem sender_window_bound (s : SenderState) (h : SenderReachable s) :
    s.buffer.length ≤ SWPSender.SWS ∧
    (s.buffer.length = SWPSender.SWS → s.permits = 0) := by
  obtain ⟨hkeys, hperm, hle⟩ := senderReachable_inv s h
  have hlen : s.buffer.length = s.lfs - s.lar := by
    have := congrArg List.length hkeys
    simpa using this
  exact ⟨by omega, fun hfull => by omega⟩

/-- C3 witness: the bound applied at the reachable state after one `_send`
from the initial state. -/
theorem sender_window_bound_witness :
    (SWPSender.sendOne SWPSender.initState [7]).1.buffer.length ≤
      SWPSender.SWS :=
  (sender_window_bound _ (SenderReachable.step _ _ SenderReachable.init
    (SenderStep.send [7] (by decide)))).1

/-- C10: in every reachable sender state, every sequence number in the
retransmission buffer lies in the half-open range `(LAR, LFS]`. -/
theorem sender_buffer_keys_bounded (s : SenderState) (h : SenderReachable s) :
    ∀ k ∈ s.buffer.map Prod.fst, s.lar < k ∧ k ≤ s.lfs := by
  obtain ⟨hkeys, _, hle⟩ := senderReachable_inv s h
  intro k hk
  rw [hkeys, List.mem_range'_1] at hk
  omega

/-- C10 witness: the key bound applied at the reachable state after one
`_send` from the initial state, whose buffer holds exactly key `1`. -/
theorem sender_buffer_keys_bounded_witness :
    (SWPSender.sendOne SWPSender.initState [7]).1.lar < 1 ∧
    1 ≤ (SWPSender.sendOne SWPSender.initState [7]).1.lfs :=
  sender_buffer_keys_bounded _ (SenderReachable.step _ _ SenderReachable.init
    (SenderStep.send [7] (by decide))) 1 (by decide)

/-- C2: when the ACK-processing loop accepts an ACK for a sequence number
found in the retransmission buffer of a reachable sender state, it sets
LAR to that number, removes exactly the buffer entries with sequence
number `≤` it, and releases one window permit per sequence number in the
half-open range `(old LAR, seq_num]` — exactly as many permits as entries
just retired. -/
theorem sender_ack_retires_cumulatively (s : SenderState) (p : SWPPacket)
    (raw : List Nat) (hreach : SenderReachable s)
    (hdec : SWPPacket.from_bytes raw = .ok p) (htype : p.type = SWPType.ACK)
    (hmem : p.seq_num ∈ s.buffer.map Prod.fst) :
    ∃ s', SWPSender.recvStep s raw = .ok s' ∧
      s'.lar = p.seq_num ∧
      s'.buffer = s.buffer.filter (fun kv => p.seq_num < kv.1) ∧
      (∀ j, j ∈ s'.buffer.map Prod.fst ↔
        j ∈ s.buffer.map Prod.fst ∧ p.seq_num < j) ∧
      s'.permits = s.permits + (Finset.Ioc s.lar p.seq_num).card ∧
      s.buffer.length = s'.buffer.length + (Finset.Ioc s.lar p.seq_num).card := by
  obtain ⟨hkeys, hperm, hle⟩ := senderReachable_inv s hreach
  have hmem' := hmem
  rw [hkeys, List.mem_range'_1] at hmem'
  have hcard : (Finset.Ioc s.lar p.seq_num).card = p.seq_num - s.lar :=
    Nat.card_Ioc s.lar p.seq_num
  have hstep : SWPSender.recvStep s raw =
      .ok ⟨p.seq_num, s.lfs, s.buffer.filter (fun kv => p.seq_num < kv.1),
           s.permits + (p.seq_num - s.lar)⟩ := by
    rw [SWPSender.recvStep, hdec]
    show (if p.type = SWPType.ACK then _ else _) = _
    rw [if_pos htype, if_pos hmem]
  refine ⟨_, hstep, rfl, rfl, ?_, ?_, ?_⟩
  · intro j
    show j ∈ (s.buffer.filter (fun kv => p.seq_num < kv.1)).map Prod.fst ↔ _
    rw [mapFst_filter, List.mem_filter]
    simp
  · show s.permits + (p.seq_num - s.lar) = _
    rw [hcard]
  · show s.buffer.length =
      (s.buffer.filter (fun kv => p.seq_num < kv.1)).length + _
    have h1 : s.buffer.length = s.lfs - s.lar := by
      have := congrArg List.length hkeys
      simpa using this
    have h2 : (s.buffer.filter (fun kv => p.seq_num < kv.1)).length =
        s.lfs - p.seq_num := by
      have hmf := mapFst_filter p.seq_num s.buffer
      have := congrArg List.length hmf
      rw [List.length_map, hkeys,
        filter_lt_range' p.seq_num _ _ (by omega)] at this
      rw [this, List.length_range']
      omega
    rw [h1, h2, hcard]
    omega

/-- C2 witness: the cumulative-ACK step applied at the reachable state
reached by two `_send` calls from the initial state (buffer keys `1, 2`),
receiving the wire encoding of `ACK 1`. -/
theorem sender_ack_retires_cumulatively_witness :
    ∃ s', SWPSender.recvStep ⟨0, 2, [(1, [10]), (2, [11])], 3⟩
        [65, 0, 0, 0, 1] = .ok s' ∧ s'.lar = 1 := by
  have h1 : SenderReachable (SWPSender.sendOne SWPSender.initState [10]).1 :=
    SenderReachable.step _ _ SenderReachable.init
      (SenderStep.send [10] (by decide))
  have h2 : SenderReachable
      (SWPSender.sendOne (SWPSender.sendOne SWPSender.initState [10]).1 [11]).1 :=
    SenderReachable.step _ _ h1 (SenderStep.send [11] (by decide))
  have hreach : SenderReachable ⟨0, 2, [(1, [10]), (2, [11])], 3⟩ := h2
  obtain ⟨s', hs, hlar, _⟩ := sender_ack_retires_cumulatively
    ⟨0, 2, [(1, [10]), (2, [11])], 3⟩ ⟨.ACK, 1, []⟩ [65, 0, 0, 0, 1]
    hreach (by decide) rfl (by decide)
  exact ⟨s', hs, hlar⟩

/-- C6 (counterexample to the claim as stated): the `_recv` loop calls
`SWPPacket.from_bytes` with no exception handler, so a datagram that fails
to decode — here the single byte `0x44` — is not dropped silently with the
state unchanged: the decode error propagates out of the loop iteration. -/
theorem sender_recv_malformed_faults :
    SWPSender.recvStep SWPSender.initState [68] = .error () ∧
    SWPSender.recvStep SWPSender.initState [68] ≠ .ok SWPSender.initState := by
  decide

/-- C6 (amended): a received datagram that decodes to a packet whose type
is not ACK is dropped silently with the sender state unchanged, and the
loop continues; a datagram that fails to decode instead propagates the
decode error (it is not handled). -/
theorem sender_recv_ignores_nonack (s : SenderState) (raw : List Nat) :
    (∀ p, SWPPacket.from_bytes raw = .ok p → p.type ≠ SWPType.ACK →
      SWPSender.recvStep s raw = .ok s) ∧
    (SWPPacket.from_bytes raw = .error () →
      SWPSender.recvStep s raw = .error ()) := by
  constructor
  · intro p hdec htype
    rw [SWPSender.recvStep, hdec]
    show (if p.type = SWPType.ACK then _ else _) = _
    rw [if_neg htype]
  · intro hdec
    rw [SWPSender.recvStep, hdec]

/-- C6 witness: a decoded DATA packet is ignored with the state unchanged,
and a 1-byte datagram makes the loop iteration fail. -/
theorem sender_recv_ignores_nonack_witness :
    SWPSender.recvStep SWPSender.initState [68, 0, 0, 0, 7] =
      .ok SWPSender.initState ∧
    SWPSender.recvStep SWPSender.initState [9] = .error () :=
  ⟨(sender_recv_ignores_nonack SWPSender.initState [68, 0, 0, 0, 7]).1
      ⟨.DATA, 7, []⟩ (by decide) (by decide),
   (sender_recv_ignores_nonack SWPSender.initState [9]).2 (by decide)⟩
